import Mathlib

/-
Verification of the CareerCompass job-matching ranking pipeline
(`src/agents/job_matcher_agent.py`, `src/agents/base_agent.py`).

Shallow embedding conventions:
* Python strings are `List Char` (wrapped in `String` for the user-facing
  messages); the regular expressions of `_parse_job_scores_from_response`,
  `re.split` and `re.sub` are embedded as deterministic matcher functions,
  which is exact for these patterns because no quantifier in them can
  backtrack productively (each greedy run is followed by a character the
  class cannot consume).
* Python floats are modelled as `ℚ`.  Every numeric value the claims touch
  (`N / 100.0`, the `0.35` pre-filter bound, the `0.60` threshold) is exactly
  representable, so no comparison in the claims depends on binary rounding.
* External collaborators (ChromaDB stats, the retriever, the LLM) are
  parameters of the model: `statsTotal` is `get_stats()['total_jobs']`,
  `retrieveFn n` is `retriever.retrieve_jobs(search_query, n)` and
  `oracle i` is the outcome of `self.llm.generate(...)` for the candidate at
  position `i` of the pre-filtered pool (`Except.error e` models the call
  raising an exception with message `e`).  The prompt text built from the
  resume by `_extract_key_resume_info` / `ContextBuilder` flows only into the
  collaborators, so it is absorbed into those parameters.
* `BaseAgent.generate_response` catches exceptions of `llm.generate` itself
  and returns an apology string (base_agent.py lines 86-98); this is
  modelled exactly, so the loop-level `except: continue` has no further
  effect in the model (nothing else in the loop body raises).
-/

/-! ### Character classes (Python `re` semantics, ASCII fragment) -/

/-- ASCII lower-casing, as `re.IGNORECASE` effectively applies to the
ASCII-only patterns of the source. -/
def lowerC (c : Char) : Char :=
  if 65 ≤ c.toNat ∧ c.toNat ≤ 90 then Char.ofNat (c.toNat + 32) else c

/-- Python `\s` on the ASCII range: space, tab, LF, VT, FF, CR. -/
def isWs (c : Char) : Bool :=
  c.toNat == 32 || c.toNat == 9 || c.toNat == 10 || c.toNat == 13 ||
  c.toNat == 11 || c.toNat == 12

/-- Python `\d` on the ASCII range. -/
def isDigitC (c : Char) : Bool :=
  decide (48 ≤ c.toNat) && decide (c.toNat ≤ 57)

/-- The character class `[:\s*]` of score pattern 1. -/
def isColonWsStar (c : Char) : Bool :=
  c.toNat == 58 || isWs c || c.toNat == 42

/-- The character class `[:\s]` of score patterns 2 and 3. -/
def isColonWs (c : Char) : Bool :=
  c.toNat == 58 || isWs c

def digitValC (c : Char) : Nat := c.toNat - 48

/-- Value of a digit run, most significant digit first. -/
def digitsToNat (l : List Char) : Nat :=
  l.foldl (fun a c => 10 * a + digitValC c) 0

/-- `float(ds "." fs) / 100.0` for the captured group of a score pattern:
`(ds + fs / 10^|fs|) / 100`, written over a common denominator with the
kernel-computable `mkRat` so that concrete runs evaluate. -/
def numVal (ds fs : List Char) : ℚ :=
  mkRat (digitsToNat ds * 10 ^ fs.length + digitsToNat fs) (100 * 10 ^ fs.length)

/-! ### Matcher primitives -/

/-- Consume a case-insensitive literal; returns the rest of the input. -/
def eatLit : List Char → List Char → Option (List Char)
  | [], s => some s
  | _ :: _, [] => none
  | l :: ls, c :: cs => if lowerC c = lowerC l then eatLit ls cs else none

/-- Consume `\s+` (greedy; deterministic because every use site is followed
by a non-whitespace requirement). -/
def eatWs1 : List Char → Option (List Char)
  | [] => none
  | c :: cs => if isWs c then some (cs.dropWhile isWs) else none

/-- Consume `[class]+` (greedy). -/
def eatClass1 (p : Char → Bool) : List Char → Option (List Char)
  | [] => none
  | c :: cs => if p c then some (cs.dropWhile p) else none

/-- Consume `(\d+(?:\.\d+)?)%`, returning the captured value divided by 100
and the rest.  Greedy digit runs followed by `%` need no backtracking. -/
def eatNumPct (s : List Char) : Option (ℚ × List Char) :=
  if (s.takeWhile isDigitC).isEmpty then none
  else
    match s.dropWhile isDigitC with
    | '%' :: r2 => some (numVal (s.takeWhile isDigitC) [], r2)
    | '.' :: r2 =>
      if (r2.takeWhile isDigitC).isEmpty then none
      else
        match r2.dropWhile isDigitC with
        | '%' :: r4 => some (numVal (s.takeWhile isDigitC) (r2.takeWhile isDigitC), r4)
        | _ => none
    | _ => none

/-! ### The four score patterns of `_parse_job_scores_from_response`
(job_matcher_agent.py lines 277-283), each as a match-at-position test. -/

/-- `Match\s+Score<cls>+(\d+(?:\.\d+)?)%` where `cls` is the bracket class. -/
def matchMS (cls : Char → Bool) (s : List Char) : Option ℚ :=
  (eatLit "match".data s).bind fun s1 =>
  (eatWs1 s1).bind fun s2 =>
  (eatLit "score".data s2).bind fun s3 =>
  (eatClass1 cls s3).bind fun s4 =>
  (eatNumPct s4).bind fun vr => some vr.1

/-- Pattern 1: `(?:Overall\s+)?Match\s+Score[:\s*]+(\d+(?:\.\d+)?)%`. -/
def matchP1At (s : List Char) : Option ℚ :=
  match ((eatLit "overall".data s).bind fun s1 =>
         (eatWs1 s1).bind fun s2 => matchMS isColonWsStar s2) with
  | some v => some v
  | none => matchMS isColonWsStar s

/-- Pattern 2: `\*\*Overall\s+Match\s+Score\*\*[:\s]+(\d+(?:\.\d+)?)%`. -/
def matchP2At (s : List Char) : Option ℚ :=
  (eatLit "**overall".data s).bind fun s1 =>
  (eatWs1 s1).bind fun s2 =>
  (eatLit "match".data s2).bind fun s3 =>
  (eatWs1 s3).bind fun s4 =>
  (eatLit "score**".data s4).bind fun s5 =>
  (eatClass1 isColonWs s5).bind fun s6 =>
  (eatNumPct s6).bind fun vr => some vr.1

/-- Pattern 3: `Match\s+Score[:\s]+(\d+(?:\.\d+)?)%`. -/
def matchP3At (s : List Char) : Option ℚ :=
  matchMS isColonWs s

/-- Pattern 4: `(\d+(?:\.\d+)?)%\s+match`. -/
def matchP4At (s : List Char) : Option ℚ :=
  (eatNumPct s).bind fun vr =>
  (eatWs1 vr.2).bind fun r2 =>
  (eatLit "match".data r2).bind fun _ => some vr.1

/-- `re.search`: try the pattern at each position, left to right. -/
def searchPat (m : List Char → Option ℚ) : List Char → Option ℚ
  | [] => none
  | c :: rest =>
    match m (c :: rest) with
    | some v => some v
    | none => searchPat m rest

/-- The per-section score extraction of
`_parse_job_scores_from_response` (lines 291-301): the patterns are tried in
priority order, the first one with a match anywhere in the section wins, and
the captured number is divided by 100.  `none` models "no score found"
(the spec's "absent"); no exception is possible. -/
def extract_score (s : List Char) : Option ℚ :=
  match searchPat matchP1At s with
  | some v => some v
  | none =>
    match searchPat matchP2At s with
    | some v => some v
    | none =>
      match searchPat matchP3At s with
      | some v => some v
      | none => searchPat matchP4At s

/-! ### Section splitting and renumbering
(`re.split(r'###\s+Job\s*#?\d+[:]', ...)` at line 286 and
`re.sub(r'###\s*Job\s*#?\d+[:]', f'### Job #{rank}:', section, count=1)`
at line 186).  `re.split` with a group-free pattern drops the separators. -/

/-- Match the split delimiter after its leading `###`:
`\s+Job\s*#?\d+[:]`; returns the rest of the input after the match.
The optional `#` is consumed only when digits follow (the regex would
otherwise backtrack and fail anyway, since `\d` cannot match `#`). -/
def matchSplitTail (s : List Char) : Option (List Char) :=
  match eatWs1 s with
  | none => none
  | some s1 =>
    match eatLit "job".data s1 with
    | none => none
    | some s2 =>
      let s3 := s2.dropWhile isWs
      let s4 := match s3 with
        | '#' :: t => t
        | _ => s3
      let ds := s4.takeWhile isDigitC
      if ds.isEmpty then none
      else
        match s4.dropWhile isDigitC with
        | ':' :: r => some r
        | _ => none

/-- Match-at-position for the split pattern `###\s+Job\s*#?\d+[:]`. -/
def matchSplitHdr : List Char → Option (List Char)
  | '#' :: '#' :: '#' :: s => matchSplitTail s
  | _ => none

/-- Match-at-position for the `re.sub` pattern `###\s*Job\s*#?\d+[:]`
(note `\s*` after `###`, unlike the split pattern's `\s+`). -/
def matchSubHdr : List Char → Option (List Char)
  | '#' :: '#' :: '#' :: s =>
    let s1 := s.dropWhile isWs
    (match eatLit "job".data s1 with
     | none => none
     | some s2 =>
       let s3 := s2.dropWhile isWs
       let s4 := match s3 with
         | '#' :: t => t
         | _ => s3
       let ds := s4.takeWhile isDigitC
       if ds.isEmpty then none
       else
         match s4.dropWhile isDigitC with
         | ':' :: r => some r
         | _ => none)
  | _ => none

/-- `re.split` scanner.  Fuel-driven structural recursion so the kernel can
evaluate it; each successful delimiter match consumes at least one
character, so with initial fuel `s.length` the fuel branch is unreachable. -/
def splitAuxF : Nat → List Char → List Char → List (List Char)
  | 0, s, cur => [cur.reverse ++ s]
  | fuel + 1, s, cur =>
    match matchSplitHdr s with
    | some rem => cur.reverse :: splitAuxF fuel rem []
    | none =>
      match s with
      | [] => [cur.reverse]
      | c :: rest => splitAuxF fuel rest (c :: cur)

/-- `re.split(r'###\s+Job\s*#?\d+[:]', response, flags=re.IGNORECASE)`. -/
def splitSections (s : List Char) : List (List Char) :=
  splitAuxF s.length s []

/-- `re.sub(pattern, repl, s, count=1)` for the job-header pattern:
replace the leftmost match only. -/
def subFirstHdr (repl : List Char) : List Char → List Char
  | [] => []
  | c :: rest =>
    match matchSubHdr (c :: rest) with
    | some rem => repl ++ rem
    | none => c :: subFirstHdr repl rest

/-! ### Data model -/

/-- One retrieved candidate as the dictionaries built by
`Retriever.retrieve_jobs` (retriever.py lines 60-76): the claims only touch
`similarity_score` (always set, as `1 - distance`) and the job's identity. -/
structure JobResult where
  id : Nat
  similarity_score : ℚ
  title : String
deriving DecidableEq

/-- An element of `matched_jobs`: the `(score, job_data, section_text)`
tuples of the scoring loop. -/
abbrev ScoredJob := ℚ × JobResult × List Char

/-! ### `_parse_job_scores_from_response` (lines 264-313) -/

/-- The per-section loop (lines 291-311): section `i` (0-based over
`job_sections[1:]`) maps to `job_results[(start_job_num - 1) + i]`; sections
beyond the job list are dropped; a section without a score is scored 0.0. -/
def parseGo (jobs : List JobResult) : Nat → List (List Char) → List ScoredJob
  | _, [] => []
  | idx, sec :: rest =>
    match jobs.get? idx with
    | some jd => ((extract_score sec).getD 0, jd, sec) :: parseGo jobs (idx + 1) rest
    | none => parseGo jobs (idx + 1) rest

/-- `_parse_job_scores_from_response(response, job_results, start_job_num)`.
(The subtraction is ℕ-truncated; the agent only ever calls this with
`start_job_num = 1`.) -/
def parse_job_scores (response : List Char) (jobs : List JobResult)
    (startNum : Nat) : List ScoredJob :=
  parseGo jobs (startNum - 1) ((splitSections response).drop 1)

/-! ### `BaseAgent` (base_agent.py) -/

/-- `generate_response`'s own exception handler (lines 95-98). -/
def apologyText (e : List Char) : List Char :=
  "I apologize, but I encountered an error processing your request: ".data ++ e

/-- `BaseAgent.generate_response` for the candidate at position `i` of the
pre-filtered pool: the LLM call either returns text or raises, in which case
the handler returns the apology message — it never propagates. -/
def generate_response (oracle : Nat → Except (List Char) (List Char))
    (i : Nat) : List Char :=
  match oracle i with
  | .ok t => t
  | .error e => apologyText e

/-- A context value (`context` is a heterogeneous Python dict; the agent
reads a string, an int and a float from it). -/
inductive CtxVal
  | str (s : String)
  | nat (n : Nat)
  | rat (q : ℚ)
deriving DecidableEq

/-- The `context` dict; `none` models passing `context=None`. -/
abbrev Context := List (String × CtxVal)

def ctxLookup (ctx : Context) (k : String) : Option CtxVal :=
  (ctx.find? (fun p => p.1 == k)).map (fun p => p.2)

/-- `BaseAgent.validate_context` (lines 100-120): `not context` rejects both
`None` and the empty dict; otherwise every required key must be present. -/
def validate_context (ctx : Option Context) (required : List String) : Bool :=
  match ctx with
  | none => false
  | some l => if l.isEmpty then false
              else required.all (fun k => (ctxLookup l k).isSome)

/-- `BaseAgent.format_error_response` (lines 122-132). -/
def format_error_response (msg : String) : String :=
  "I apologize, but I encountered an issue: " ++ msg ++
  "\n\nPlease try rephrasing your question or providing more context."

/-- `context.get('n_results', 5)`-style typed read. -/
def ctxGetNat (ctx : Context) (k : String) (dflt : Nat) : Nat :=
  match ctxLookup ctx k with
  | some (.nat n) => n
  | _ => dflt

def ctxGetRat (ctx : Context) (k : String) (dflt : ℚ) : ℚ :=
  match ctxLookup ctx k with
  | some (.rat q) => q
  | _ => dflt

/-! ### The scoring loop (`JobMatcherAgent.process`, lines 114-170) -/

/-- The loop state after the pass:
`matched` is `matched_jobs`, `calls` records the (0-based) positions of the
pre-filtered pool for which a completion call was issued, `checked` is
`jobs_checked`. -/
structure LoopOut where
  matched : List ScoredJob
  calls : List Nat
  checked : Nat
deriving DecidableEq

/-- The `for job_idx, job in enumerate(pre_filtered_jobs)` loop: stop when
`n_results` matches are held; otherwise issue one completion call, parse the
single-job response, accept the candidate when its score reaches
`min_match_score`, and stop immediately once enough matches are held. -/
def scoreLoopAux (oracle : Nat → Except (List Char) (List Char))
    (minScore : ℚ) (nResults : Nat) :
    List (Nat × JobResult) → List ScoredJob → List Nat → Nat → LoopOut
  | [], matched, calls, checked => ⟨matched, calls, checked⟩
  | (i, job) :: rest, matched, calls, checked =>
    if nResults ≤ matched.length then ⟨matched, calls, checked⟩
    else
      let response := generate_response oracle i
      match parse_job_scores response [job] 1 with
      | [] => scoreLoopAux oracle minScore nResults rest matched (calls ++ [i]) (checked + 1)
      | (score, jd, sec) :: _ =>
        if minScore ≤ score then
          let matched2 := matched ++ [(score, jd, sec)]
          if nResults ≤ matched2.length then ⟨matched2, calls ++ [i], checked + 1⟩
          else scoreLoopAux oracle minScore nResults rest matched2 (calls ++ [i]) (checked + 1)
        else scoreLoopAux oracle minScore nResults rest matched (calls ++ [i]) (checked + 1)

/-- The scoring pass over the pre-filtered pool, from the empty state. -/
def scoreLoop (oracle : Nat → Except (List Char) (List Char))
    (minScore : ℚ) (nResults : Nat) (pool : List JobResult) : LoopOut :=
  scoreLoopAux oracle minScore nResults pool.enum [] [] 0

/-! ### Messages and response assembly -/

/-- `settings.MIN_JOB_MATCH_SCORE` (config/settings.py line 50). -/
def MIN_JOB_MATCH_SCORE : ℚ := mkRat 60 100

/-- The `0.35` semantic pre-filter bound (line 101). -/
def min_semantic_similarity : ℚ := mkRat 35 100

/-- The pre-filter (lines 102-105): keep candidates whose
`similarity_score` is at least `0.35`. -/
def preFilter (jobs : List JobResult) : List JobResult :=
  jobs.filter (fun j => decide (min_semantic_similarity ≤ j.similarity_score))

/-- The tiered candidate-pool sizing (lines 81-89). -/
def tierMaxCandidates (totalJobs : Nat) : Nat :=
  if totalJobs ≤ 500 then min 50 totalJobs
  else if totalJobs ≤ 5000 then min 50 totalJobs
  else min 75 totalJobs

/-- Decimal digits of `n`, most significant first; fuel-driven so the
kernel can evaluate it (`n < fuel` suffices, since `n` has at most `n`
digits). -/
def renderNatAux : Nat → Nat → List Char
  | 0, _ => []
  | fuel + 1, n =>
    if n = 0 then []
    else renderNatAux fuel (n / 10) ++ [Char.ofNat (48 + n % 10)]

/-- Decimal rendering of a natural number, as Python `str`/format does. -/
def renderNat (n : Nat) : List Char :=
  if n = 0 then ['0'] else renderNatAux (n + 1) n

def renderNatS (n : Nat) : String := ⟨renderNat n⟩

/-- Python `"{:.0f}".format(q * 100)`: the percentage rounded to the nearest
integer, computed as `⌊(q * 100) + 1/2⌋ = (200 * num + den) / (2 * den)`.
(Rounding of exact halves is immaterial to every claim; Python rounds
half-to-even on floats, this model rounds half-up.) -/
def fmtPct (q : ℚ) : String :=
  let z : ℤ := Int.ediv (200 * q.num + (q.den : ℤ)) (2 * (q.den : ℤ))
  (if z < 0 then "-" else "") ++ renderNatS z.natAbs

/-- Line 71: the empty-corpus message. -/
def emptyDbMsg : String :=
  "I couldn't find any jobs in the database. Please run `python load_data.py` to load job postings."

/-- Line 97: empty retrieval result. -/
def noResultsMsg : String :=
  "I couldn't find any matching jobs in the database. Please try uploading more job postings or adjusting your resume."

/-- Lines 172-178: the "no jobs met threshold" message. -/
def noThresholdMsg (minScore : ℚ) (checked : Nat) (totalCand : Nat) : String :=
  "\n⚠️ **No jobs found above " ++
  (fmtPct minScore ++ ("% match threshold.**\n\n" ++
  ("I checked " ++ (renderNatS checked ++ (" jobs from the database (pre-filtered from " ++
  (renderNatS totalCand ++ (" candidates), but none met the " ++
  (fmtPct minScore ++ ("% match threshold.\n\n" ++
  ("Consider:\n" ++ ("- Expanding your search criteria\n" ++
  ("- Adjusting the match threshold\n" ++
  "- Reviewing jobs with lower scores to see if any are still relevant"))))))))))))

/-- The replacement text `f'### Job #{rank}:'` of line 186. -/
def jobHeaderRepl (rank : Nat) : List Char :=
  "### Job #".data ++ renderNat rank ++ [':']

/-- Lines 180-190: header plus the accepted sections with the first job
header inside each section rewritten to the candidate's rank. -/
def buildFinalResponse (minScore : ℚ) (matched : List ScoredJob) : String :=
  let header := "## 🎯 " ++ renderNatS matched.length ++ " Job Matches Found (First " ++
    renderNatS matched.length ++ " Above " ++ fmtPct minScore ++ "% Threshold)\n\n"
  let sections := matched.enum.map
    (fun p => subFirstHdr (jobHeaderRepl (p.1 + 1)) p.2.2.2)
  header ++ String.join (sections.map (fun l => ⟨l⟩))

/-! ### `JobMatcherAgent.process` (lines 43-196) -/

/-- Observable outcome of one `process` call: the returned string plus the
external calls that were issued and the final loop state. -/
structure ProcOut where
  response : String
  statsCalls : Nat
  retrievalCalls : Nat
  completionCalls : List Nat
  matched : List ScoredJob
  checked : Nat
deriving DecidableEq

/-- `JobMatcherAgent.process(query, context)`.  `statsTotal` is the corpus
size reported by `get_stats()`, `retrieveFn` the retriever and `oracle` the
per-candidate completion outcome (see the header comment). -/
def processModel (ctx : Option Context) (statsTotal : Nat)
    (retrieveFn : Nat → List JobResult)
    (oracle : Nat → Except (List Char) (List Char)) : ProcOut :=
  if validate_context ctx ["resume_text"] = false then
    ⟨format_error_response "Please provide your resume to find matching jobs.",
      0, 0, [], [], 0⟩
  else
    let c := ctx.getD []
    let nResults := ctxGetNat c "n_results" 5
    let minScore := ctxGetRat c "min_match_score" MIN_JOB_MATCH_SCORE
    if statsTotal = 0 then ⟨emptyDbMsg, 1, 0, [], [], 0⟩
    else
      let all := retrieveFn (tierMaxCandidates statsTotal)
      if all.isEmpty then ⟨noResultsMsg, 1, 1, [], [], 0⟩
      else
        let pre := preFilter all
        let lo := scoreLoop oracle minScore nResults pre
        if lo.matched.isEmpty then
          ⟨noThresholdMsg minScore lo.checked all.length, 1, 1, lo.calls, lo.matched, lo.checked⟩
        else
          ⟨buildFinalResponse minScore lo.matched, 1, 1, lo.calls, lo.matched, lo.checked⟩

/-- Substring occurrence test (used to state facts about the final
response text). -/
def startsWithL : List Char → List Char → Bool
  | [], _ => true
  | _ :: _, [] => false
  | p :: ps, c :: cs => p == c && startsWithL ps cs

def hasSub (pat : List Char) : List Char → Bool
  | [] => pat.isEmpty
  | c :: rest => startsWithL pat (c :: rest) || hasSub pat rest

/-! ### Helper lemmas -/

lemma strData_append (a b : String) : (a ++ b).data = a.data ++ b.data := by
  cases a; cases b; rfl

/-- The accept/reject decision the loop takes for the candidate at position
`p.1` of the pre-filtered pool. -/
def acceptStep (oracle : Nat → Except (List Char) (List Char)) (minScore : ℚ)
    (p : Nat × JobResult) : Option ScoredJob :=
  match parse_job_scores (generate_response oracle p.1) [p.2] 1 with
  | [] => none
  | (s, jd, sec) :: _ => if minScore ≤ s then some (s, jd, sec) else none

lemma scoreLoopAux_stop (oracle : Nat → Except (List Char) (List Char))
    (minScore : ℚ) (n : Nat) (l : List (Nat × JobResult))
    (acc : List ScoredJob) (calls : List Nat) (checked : Nat)
    (h : n ≤ acc.length) :
    scoreLoopAux oracle minScore n l acc calls checked = ⟨acc, calls, checked⟩ := by
  cases l with
  | nil => rfl
  | cons hd tl =>
    obtain ⟨i, job⟩ := hd
    simp [scoreLoopAux, h]

lemma scoreLoopAux_matched (oracle : Nat → Except (List Char) (List Char))
    (minScore : ℚ) (n : Nat) :
    ∀ (l : List (Nat × JobResult)) (acc : List ScoredJob) (calls : List Nat)
      (checked : Nat), acc.length ≤ n →
    (scoreLoopAux oracle minScore n l acc calls checked).matched
      = acc ++ (l.filterMap (acceptStep oracle minScore)).take (n - acc.length) := by
  intro l
  induction l with
  | nil => intro acc calls checked _; simp [scoreLoopAux]
  | cons hd tl ih =>
    obtain ⟨i, job⟩ := hd
    intro acc calls checked hle
    by_cases hstop : n ≤ acc.length
    · have : acc.length = n := le_antisymm hle hstop
      rw [scoreLoopAux_stop _ _ _ _ _ _ _ hstop]
      simp [this]
    · have hlt : acc.length < n := lt_of_le_of_ne hle (fun h => hstop (le_of_eq h.symm))
      rw [scoreLoopAux]
      rw [if_neg hstop]
      rcases hp : parse_job_scores (generate_response oracle i) [job] 1 with _ | ⟨⟨s, jd, sec⟩, t⟩
      · have hacc : acceptStep oracle minScore (i, job) = none := by
          simp [acceptStep, hp]
        simp only [hp]
        rw [ih acc _ _ hle]
        simp [List.filterMap_cons, hacc]
      · by_cases hmin : minScore ≤ s
        · have hacc : acceptStep oracle minScore (i, job) = some (s, jd, sec) := by
            simp [acceptStep, hp, hmin]
          simp only [hp, hmin, if_true]
          by_cases hfull : n ≤ (acc ++ [(s, jd, sec)]).length
          · have hlen : acc.length + 1 = n := by
              simp at hfull
              omega
            rw [if_pos hfull]
            have h1 : n - acc.length = 1 := by omega
            simp [List.filterMap_cons, hacc, h1]
          · rw [if_neg hfull]
            have hle2 : (acc ++ [(s, jd, sec)]).length ≤ n := by
              simp at hfull ⊢
              omega
            rw [ih _ _ _ hle2]
            have h2 : n - acc.length = (n - (acc.length + 1)) + 1 := by omega
            simp [List.filterMap_cons, hacc, h2, List.take_succ_cons]
        · have hacc : acceptStep oracle minScore (i, job) = none := by
            simp [acceptStep, hp, hmin]
          simp only [hp, hmin, if_false]
          rw [ih acc _ _ hle]
          simp [List.filterMap_cons, hacc]

lemma scoreLoopAux_calls (oracle : Nat → Except (List Char) (List Char))
    (minScore : ℚ) (n : Nat) :
    ∀ (l : List (Nat × JobResult)) (acc : List ScoredJob) (calls : List Nat)
      (checked : Nat),
    (scoreLoopAux oracle minScore n l acc calls checked).calls.length
      ≤ calls.length + l.length := by
  intro l
  induction l with
  | nil => intro acc calls checked; simp [scoreLoopAux]
  | cons hd tl ih =>
    obtain ⟨i, job⟩ := hd
    intro acc calls checked
    rw [scoreLoopAux]
    by_cases hstop : n ≤ acc.length
    · rw [if_pos hstop]; simp
    · rw [if_neg hstop]
      rcases hp : parse_job_scores (generate_response oracle i) [job] 1 with _ | ⟨⟨s, jd, sec⟩, t⟩
      · simp only [hp]
        have := ih acc (calls ++ [i]) (checked + 1)
        simp at this ⊢
        omega
      · simp only [hp]
        by_cases hmin : minScore ≤ s
        · simp only [hmin, if_true]
          by_cases hfull : n ≤ (acc ++ [(s, jd, sec)]).length
          · rw [if_pos hfull]; simp
          · rw [if_neg hfull]
            have := ih (acc ++ [(s, jd, sec)]) (calls ++ [i]) (checked + 1)
            simp at this ⊢
            omega
        · simp only [hmin, if_false]
          have := ih acc (calls ++ [i]) (checked + 1)
          simp at this ⊢
          omega

lemma parseGo_of_len_le (jobs : List JobResult) :
    ∀ (secs : List (List Char)) (idx : Nat), jobs.length ≤ idx →
    parseGo jobs idx secs = [] := by
  intro secs
  induction secs with
  | nil => intro idx _; rfl
  | cons sec rest ih =>
    intro idx h
    have hg : jobs.get? idx = none := List.get?_eq_none.mpr h
    rw [parseGo, hg]
    exact ih (idx + 1) (Nat.le_succ_of_le h)

/-- A response that the splitter leaves in one piece (no `### Job #N:`
delimiter) produces no scored tuple at all: the candidate is skipped. -/
lemma parse_of_single_section (resp : List Char) (jobs : List JobResult)
    (h : (splitSections resp).length ≤ 1) :
    parse_job_scores resp jobs 1 = [] := by
  unfold parse_job_scores
  rw [List.drop_eq_nil_of_le h]
  rfl

/-- Every scored tuple returned by the parser carries one of the response's
sections, and its score is the extracted score of that section (0 when
absent). -/
lemma parse_mem (resp : List Char) (jobs : List JobResult) (k : Nat)
    (m : ScoredJob) (hm : m ∈ parse_job_scores resp jobs k) :
    m.2.2 ∈ splitSections resp ∧ m.1 = (extract_score m.2.2).getD 0 := by
  have key : ∀ (secs : List (List Char)) (idx : Nat),
      m ∈ parseGo jobs idx secs →
      m.2.2 ∈ secs ∧ m.1 = (extract_score m.2.2).getD 0 := by
    intro secs
    induction secs with
    | nil => intro idx h; simp [parseGo] at h
    | cons sec rest ih =>
      intro idx h
      rw [parseGo] at h
      rcases hg : jobs.get? idx with _ | jd
      · rw [hg] at h
        obtain ⟨h1, h2⟩ := ih (idx + 1) h
        exact ⟨List.mem_cons_of_mem _ h1, h2⟩
      · rw [hg] at h
        rcases List.mem_cons.mp h with h | h
        · subst h
          exact ⟨List.mem_cons_self _ _, rfl⟩
        · obtain ⟨h1, h2⟩ := ih (idx + 1) h
          exact ⟨List.mem_cons_of_mem _ h1, h2⟩
  obtain ⟨h1, h2⟩ := key _ _ hm
  exact ⟨List.mem_of_mem_drop h1, h2⟩

/-! ### C1 -/

/-- C1: For every run of the scoring loop with a (necessarily non-negative,
`ℕ`-modelled) requested count `n_results`: a state holding `n_results`
matches terminates at once with no further completion call; from any
reachable state (`acc.length ≤ n`) the accepted list never exceeds
`n_results`; at most one completion call is made per pre-filtered candidate;
and consequently `process` returns at most `n_results` matches having issued
at most `len(pre_filtered_jobs)` completion calls. -/
theorem C1_bound_early_stop_call_count :
    (∀ oracle minScore n l (acc : List ScoredJob) calls checked, n ≤ acc.length →
      scoreLoopAux oracle minScore n l acc calls checked = ⟨acc, calls, checked⟩)
    ∧ (∀ oracle minScore n l (acc : List ScoredJob) calls checked, acc.length ≤ n →
      (scoreLoopAux oracle minScore n l acc calls checked).matched.length ≤ n)
    ∧ (∀ oracle minScore n (pool : List JobResult),
      (scoreLoop oracle minScore n pool).calls.length ≤ pool.length)
    ∧ (∀ ctx statsTotal retrieveFn oracle,
      (processModel ctx statsTotal retrieveFn oracle).matched.length
        ≤ ctxGetNat (ctx.getD []) "n_results" 5
      ∧ (processModel ctx statsTotal retrieveFn oracle).completionCalls.length
        ≤ (preFilter (retrieveFn (tierMaxCandidates statsTotal))).length) := by
  have hstop := scoreLoopAux_stop
  have hlen : ∀ oracle minScore n l (acc : List ScoredJob) calls checked,
      acc.length ≤ n →
      (scoreLoopAux oracle minScore n l acc calls checked).matched.length ≤ n := by
    intro oracle minScore n l acc calls checked h
    rw [scoreLoopAux_matched oracle minScore n l acc calls checked h]
    simp
    omega
  have hcalls : ∀ oracle minScore n (pool : List JobResult),
      (scoreLoop oracle minScore n pool).calls.length ≤ pool.length := by
    intro oracle minScore n pool
    have := scoreLoopAux_calls oracle minScore n pool.enum [] [] 0
    simpa using this
  refine ⟨hstop, hlen, hcalls, ?_⟩
  intro ctx statsTotal retrieveFn oracle
  unfold processModel
  by_cases hv : validate_context ctx ["resume_text"] = false
  · simp [hv]
  · simp only [hv, if_false]
    by_cases hz : statsTotal = 0
    · simp [hz]
    · simp only [hz, if_false]
      by_cases he : (retrieveFn (tierMaxCandidates statsTotal)).isEmpty
      · simp [he]
      · simp only [he, if_false]
        by_cases hm : (scoreLoop oracle
            (ctxGetRat (ctx.getD []) "min_match_score" MIN_JOB_MATCH_SCORE)
            (ctxGetNat (ctx.getD []) "n_results" 5)
            (preFilter (retrieveFn (tierMaxCandidates statsTotal)))).matched.isEmpty
        · simp only [hm, if_true]
          constructor
          · exact hlen _ _ _ _ _ _ _ (by simp)
          · exact hcalls _ _ _ _
        · simp only [hm, if_false]
          constructor
          · exact hlen _ _ _ _ _ _ _ (by simp)
          · exact hcalls _ _ _ _

def c1job : JobResult := ⟨1, mkRat 9 10, "C1"⟩

def c1oracle : Nat → Except (List Char) (List Char) :=
  fun _ => Except.ok "### Job #1: Match Score: 70%".data

theorem C1_witness :
    scoreLoopAux c1oracle (6 / 10) 0 [(0, c1job)] [] [] 0 = ⟨[], [], 0⟩
    ∧ (scoreLoopAux c1oracle (6 / 10) 1 [(0, c1job)] [] [] 0).matched.length ≤ 1
    ∧ (scoreLoop c1oracle (6 / 10) 1 [c1job]).calls.length ≤ 1
    ∧ (processModel (some [("resume_text", CtxVal.str "r")]) 1 (fun _ => [c1job]) c1oracle).matched.length
        ≤ ctxGetNat ((some [("resume_text", CtxVal.str "r")] : Option Context).getD []) "n_results" 5 := by
  refine ⟨?_, ?_, ?_, ?_⟩
  · exact C1_bound_early_stop_call_count.1 c1oracle (6 / 10) 0 [(0, c1job)] [] [] 0 (by decide)
  · exact C1_bound_early_stop_call_count.2.1 c1oracle (6 / 10) 1 [(0, c1job)] [] [] 0 (by decide)
  · have h := C1_bound_early_stop_call_count.2.2.1 c1oracle (6 / 10) 1 [c1job]
    simpa using h
  · exact (C1_bound_early_stop_call_count.2.2.2 (some [("resume_text", CtxVal.str "r")]) 1 (fun _ => [c1job]) c1oracle).1

lemma scoreLoop_matched_take (oracle : Nat → Except (List Char) (List Char))
    (minScore : ℚ) (n : Nat) (pool : List JobResult) :
    (scoreLoop oracle minScore n pool).matched
      = (pool.enum.filterMap (acceptStep oracle minScore)).take n := by
  have h := scoreLoopAux_matched oracle minScore n pool.enum [] [] 0 (by simp)
  simpa using h

/-! ### C2 -/

def c2jobA : JobResult := ⟨1, mkRat 7 10, "A"⟩

def c2jobB : JobResult := ⟨2, mkRat 9 10, "B"⟩

def c2oracle : Nat → Except (List Char) (List Char) :=
  fun i => if i = 0 then Except.ok "### Job #1: Match Score: 70%".data
           else Except.ok "### Job #1: Match Score: 90%".data

/-- C2: the accepted list is exactly the first `n_results` accepting
candidates in pre-filtered pool order (a `take` of an order-preserving
`filterMap`), never re-sorted by score; concretely, with pool order
[0.7-scorer, 0.9-scorer], both above the 0.6 threshold and `n_results = 1`,
the 0.7-scorer is the one returned. -/
theorem C2_discovery_order :
    (∀ oracle minScore n (pool : List JobResult),
      (scoreLoop oracle minScore n pool).matched
        = (pool.enum.filterMap (acceptStep oracle minScore)).take n)
    ∧ (scoreLoop c2oracle (mkRat 6 10) 1 [c2jobA, c2jobB]).matched.map
        (fun m => (m.1, m.2.1)) = [(mkRat 7 10, c2jobA)] := by
  constructor
  · intro oracle minScore n pool
    exact scoreLoop_matched_take oracle minScore n pool
  · decide

/-! ### C3 -/

lemma strHead_append (s t : String) (c : Char) (h : s.data.head? = some c) :
    (s ++ t).data.head? = some c := by
  rw [strData_append]
  cases hd : s.data with
  | nil => rw [hd] at h; simp at h
  | cons x xs => rw [hd] at h; simp at h; simp [hd, h]

lemma noThresholdMsg_head (q : ℚ) (c t : Nat) :
    (noThresholdMsg q c t).data.head? = some '\n' := by
  unfold noThresholdMsg
  exact strHead_append _ _ _ (by decide)

/-- C3: with a validated context and an empty corpus, `process` returns the
fixed "no jobs in the database" message right after the stats call, with no
retrieval and no completion call, and that message differs from every
possible "no jobs met threshold" message. -/
theorem C3_empty_corpus (ctx : Option Context)
    (retrieveFn : Nat → List JobResult)
    (oracle : Nat → Except (List Char) (List Char))
    (hv : validate_context ctx ["resume_text"] = true) :
    processModel ctx 0 retrieveFn oracle = ⟨emptyDbMsg, 1, 0, [], [], 0⟩
    ∧ (∀ (q : ℚ) (chk tot : Nat), emptyDbMsg ≠ noThresholdMsg q chk tot) := by
  constructor
  · unfold processModel
    rw [hv]
    simp
  · intro q chk tot h
    have h1 := congrArg (fun s : String => s.data.head?) h
    dsimp only at h1
    rw [noThresholdMsg_head] at h1
    have h2 : emptyDbMsg.data.head? = some 'I' := by decide
    rw [h2] at h1
    simp at h1

def c3rf : Nat → List JobResult := fun _ => []

def c3oracle : Nat → Except (List Char) (List Char) := fun _ => Except.ok []

theorem C3_witness :
    processModel (some [("resume_text", CtxVal.str "My resume")]) 0 c3rf c3oracle
      = ⟨emptyDbMsg, 1, 0, [], [], 0⟩
    ∧ emptyDbMsg ≠ noThresholdMsg (mkRat 6 10) 0 1 := by
  have h := C3_empty_corpus (some [("resume_text", CtxVal.str "My resume")]) c3rf c3oracle (by decide)
  exact ⟨h.1, h.2 (mkRat 6 10) 0 1⟩

/-! ### C4 -/

def c4keep : JobResult := ⟨1, mkRat 35 100, "at-boundary"⟩

def c4drop : JobResult := ⟨2, mkRat 3499 10000, "below-boundary"⟩

/-- C4: the pre-filter keeps exactly the candidates whose
`similarity_score` is not strictly below `0.35` (so a score of exactly
`0.35` is retained and `0.3499` is dropped), removes nothing else, and
preserves the relative order of the retained candidates (the result is a
sublist of the input). -/
theorem C4_pre_filter :
    (∀ (l : List JobResult) (j : JobResult),
      j ∈ preFilter l ↔ j ∈ l ∧ ¬(j.similarity_score < min_semantic_similarity))
    ∧ (∀ l : List JobResult, (preFilter l).Sublist l)
    ∧ preFilter [c4keep, c4drop] = [c4keep] := by
  refine ⟨?_, ?_, ?_⟩
  · intro l j
    simp [preFilter, List.mem_filter, not_lt]
  · intro l
    exact List.filter_sublist l
  · decide

/-! ### C10 -/

/-- C10: a `process` call whose context is `None`, empty, or lacks the key
`'resume_text'` fails validation and returns the formatted "please provide
your resume" error with no stats, retrieval or completion call issued; and
validation succeeds exactly when the context carries the required key. -/
theorem C10_context_validation (ctx : Option Context) (statsTotal : Nat)
    (retrieveFn : Nat → List JobResult)
    (oracle : Nat → Except (List Char) (List Char)) :
    (validate_context ctx ["resume_text"] = false →
      processModel ctx statsTotal retrieveFn oracle
        = ⟨format_error_response "Please provide your resume to find matching jobs.",
            0, 0, [], [], 0⟩)
    ∧ ((ctx = none ∨ ctx = some [] ∨ ctxLookup (ctx.getD []) "resume_text" = none) →
      validate_context ctx ["resume_text"] = false)
    ∧ (validate_context ctx ["resume_text"] = true
        ↔ ∃ l, ctx = some l ∧ (ctxLookup l "resume_text").isSome) := by
  refine ⟨?_, ?_, ?_⟩
  · intro h
    unfold processModel
    rw [h]
    simp
  · intro h
    rcases h with h | h | h
    · subst h; rfl
    · subst h; rfl
    · cases ctx with
      | none => rfl
      | some l =>
        simp only [Option.getD] at h
        by_cases he : l.isEmpty
        · simp [validate_context, he]
        · simp [validate_context, he, List.all, h]
  · cases ctx with
    | none => simp [validate_context]
    | some l =>
      by_cases he : l.isEmpty
      · have : l = [] := List.isEmpty_iff.mp he
        subst this
        simp [validate_context, ctxLookup]
      · simp only [validate_context, he, if_false]
        constructor
        · intro h
          refine ⟨l, rfl, ?_⟩
          simp [List.all] at h
          exact h
        · rintro ⟨l', hl', hs⟩
          have h' : l = l' := by injection hl'
          subst h' 
          simp [List.all]
          exact hs

def c10rf : Nat → List JobResult := fun _ => []

def c10oracle : Nat → Except (List Char) (List Char) := fun _ => Except.ok []

theorem C10_witness :
    processModel none 7 c10rf c10oracle
      = ⟨format_error_response "Please provide your resume to find matching jobs.",
          0, 0, [], [], 0⟩
    ∧ validate_context (some [("resume_text", CtxVal.str "x")]) ["resume_text"] = true := by
  constructor
  · exact (C10_context_validation none 7 c10rf c10oracle).1 rfl
  · exact (C10_context_validation (some [("resume_text", CtxVal.str "x")]) 7 c10rf c10oracle).2.2.mpr
      ⟨[("resume_text", CtxVal.str "x")], rfl, by decide⟩

/-! ### C5 -/

def c5resp : List Char := "I am unable to rate this role.".data

def c5oracle : Nat → Except (List Char) (List Char) := fun _ => Except.ok c5resp

def c5job : JobResult := ⟨4, mkRat 9 10, "D"⟩

/-- C5 counterexample: a response in which no score pattern matches (score
extraction is absent) but which also contains no `### Job #N:` section
delimiter.  With `min_match_score = 0` the claim says the candidate scores 0
and `0 >= 0` passes, so it would be accepted — but the code skips the
candidate entirely (`job_scored` is empty), and the accepted list stays
empty. -/
theorem C5_counterexample :
    extract_score c5resp = none
    ∧ parse_job_scores c5resp [c5job] 1 = []
    ∧ (scoreLoop c5oracle 0 1 [c5job]).matched = [] := by
  decide

/-- C5 (amended): when no score pattern matches, extraction returns `none`
(absence, not an exception); if the response still contains a
`### Job #N:` delimiter the loop scores the candidate 0.0 and accepts it
exactly when `min_match_score ≤ 0` (in particular when it is 0); but a
response without any section delimiter yields no scored tuple at all and
the candidate is skipped regardless of `min_match_score`. -/
theorem C5_absent_score (oracle : Nat → Except (List Char) (List Char))
    (minScore : ℚ) (i : Nat) (job : JobResult) (resp r0 s1 : List Char)
    (rest2 : List (List Char))
    (hok : oracle i = Except.ok resp)
    (hsplit : splitSections resp = r0 :: s1 :: rest2)
    (habs : extract_score s1 = none) :
    parse_job_scores resp [job] 1 = [(0, job, s1)]
    ∧ (scoreLoopAux oracle minScore 1 [(i, job)] [] [] 0
        = if minScore ≤ 0 then ⟨[(0, job, s1)], [i], 1⟩ else ⟨[], [i], 1⟩)
    ∧ (∀ resp2 : List Char, (splitSections resp2).length ≤ 1 →
        parse_job_scores resp2 [job] 1 = []) := by
  have hparse : parse_job_scores resp [job] 1 = [(0, job, s1)] := by
    unfold parse_job_scores
    rw [hsplit]
    simp only [List.drop]
    rw [parseGo]
    simp only [List.get?]
    rw [habs]
    simp only [Option.getD]
    rw [parseGo_of_len_le [job] rest2 1 (by simp)]
  refine ⟨hparse, ?_, ?_⟩
  · rw [scoreLoopAux]
    simp only [List.length_nil, Nat.le_zero, if_neg (by omega : ¬ (1 ≤ 0))]
    have hresp : generate_response oracle i = resp := by
      unfold generate_response; rw [hok]
    rw [hresp, hparse]
    by_cases hm : minScore ≤ 0
    · simp [hm, scoreLoopAux]
    · simp [hm, scoreLoopAux]
  · intro resp2 h2
    exact parse_of_single_section resp2 [job] h2

def c5wresp : List Char := "### Job #1:\nno numeric rating given.".data

def c5wsec : List Char := "\nno numeric rating given.".data

def c5woracle : Nat → Except (List Char) (List Char) := fun _ => Except.ok c5wresp

theorem C5_witness :
    parse_job_scores c5wresp [c5job] 1 = [(0, c5job, c5wsec)]
    ∧ scoreLoopAux c5woracle 0 1 [(0, c5job)] [] [] 0 = ⟨[(0, c5job, c5wsec)], [0], 1⟩ := by
  have h := C5_absent_score c5woracle 0 0 c5job c5wresp [] c5wsec [] rfl (by decide) (by decide)
  refine ⟨h.1, ?_⟩
  have h2 := h.2.1
  rw [if_pos (le_refl (0 : ℚ))] at h2
  exact h2

/-! ### C6 -/

def c6job : JobResult := ⟨3, mkRat 9 10, "C"⟩

def c6oracle : Nat → Except (List Char) (List Char) :=
  fun _ => Except.error "### Job #1: Match Score: 99%".data

/-- C6 counterexample: a completion call that *fails* with an exception
whose message itself contains a job-section delimiter and a score pattern.
`generate_response` interpolates the message into its apology text, the
loop parses that text like a normal response, and the failed candidate is
*accepted* with a `MatchResult` — contradicting the claim that a failing
candidate is always skipped with nothing appended. -/
theorem C6_counterexample :
    (scoreLoop c6oracle (mkRat 6 10) 1 [c6job]).matched.map (fun m => (m.1, m.2.1))
      = [(mkRat 99 100, c6job)] := by
  decide

/-- C6 (amended): a single candidate's completion failure is caught inside
`generate_response`, which returns an apology string embedding the error
message; provided that apology text contains no `### Job #N:` section
delimiter (true for every error message that does not itself contain one),
the candidate is skipped — no `MatchResult` is appended, the loop simply
moves on to the remaining candidates with one more checked/called entry —
and the ranking pass never propagates the exception.  (If the error message
does contain a delimiter and a score, the apology text is parsed like a
normal response; see the counterexample.) -/
theorem C6_failed_call_skipped (oracle : Nat → Except (List Char) (List Char))
    (minScore : ℚ) (n i : Nat) (job : JobResult)
    (rest : List (Nat × JobResult)) (acc : List ScoredJob) (calls : List Nat)
    (checked : Nat) (e : List Char)
    (herr : oracle i = Except.error e)
    (hnohdr : (splitSections (apologyText e)).length ≤ 1)
    (hroom : acc.length < n) :
    scoreLoopAux oracle minScore n ((i, job) :: rest) acc calls checked
      = scoreLoopAux oracle minScore n rest acc (calls ++ [i]) (checked + 1) := by
  rw [scoreLoopAux]
  rw [if_neg (by omega)]
  have hresp : generate_response oracle i = apologyText e := by
    unfold generate_response; rw [herr]
  rw [hresp]
  simp only [parse_of_single_section (apologyText e) [job] hnohdr]

def c6woracle : Nat → Except (List Char) (List Char) :=
  fun _ => Except.error "connection timed out".data

theorem C6_witness :
    scoreLoopAux c6woracle (mkRat 6 10) 1 [(0, c6job)] [] [] 0
      = scoreLoopAux c6woracle (mkRat 6 10) 1 [] [] [0] 1 := by
  exact C6_failed_call_skipped c6woracle (mkRat 6 10) 1 0 c6job [] [] [] 0
    "connection timed out".data rfl (by decide) (by decide)

/-! ### C8 -/

def c8ctx : Option Context :=
  some [("resume_text", CtxVal.str "r"), ("n_results", CtxVal.nat 1)]

def c8job : JobResult := ⟨1, mkRat 9 10, "Backend Engineer"⟩

def c8rf : Nat → List JobResult := fun _ => [c8job]

def c8oracle : Nat → Except (List Char) (List Char) :=
  fun _ => Except.ok "### Job #1:\n**Overall Match Score:** 90%\nGreat fit.".data

/-- C8: the renumbering never happens.  `re.split` removes the
`### Job #N:` delimiters, so the stored section text contains no job
header; the `re.sub(..., count=1)` of line 186 therefore finds nothing to
replace, and the final response contains no `### Job #k:` label at all —
here a run that accepts exactly one candidate (whose raw response *did*
carry a `### Job #1:` header) produces a final response without any such
label, contradicting the claimed `### Job #1:` ... `### Job #k:` labels. -/
theorem C8_renumbering_never_fires :
    (processModel c8ctx 3 c8rf c8oracle).matched.length = 1
    ∧ hasSub "### Job #1:".data (processModel c8ctx 3 c8rf c8oracle).response.data = false
    ∧ hasSub "### Job".data (processModel c8ctx 3 c8rf c8oracle).response.data = false := by
  decide

/-! ### C9 -/

def c9resp : List Char := "### Job #1: Match Score: 150%".data

def c9oracle : Nat → Except (List Char) (List Char) := fun _ => Except.ok c9resp

def c9job : JobResult := ⟨5, mkRat 9 10, "E"⟩

/-- C9 counterexample: a response announcing a `150%` match is parsed to the
stored score `1.5`, accepted (it clears the `0.6` threshold), and the
resulting `MatchResult` score exceeds 1 — the scores are not clamped to
`[0, 1]`. -/
theorem C9_counterexample :
    (scoreLoop c9oracle (mkRat 6 10) 1 [c9job]).matched.map (fun m => m.1)
      = [mkRat 3 2]
    ∧ ¬((mkRat 3 2 : ℚ) ≤ 1) := by
  decide

lemma numVal_nonneg (ds fs : List Char) : 0 ≤ numVal ds fs := by
  unfold numVal
  rw [Rat.mkRat_eq_div]
  positivity

lemma eatNumPct_nonneg (s : List Char) (v : ℚ) (r : List Char)
    (h : eatNumPct s = some (v, r)) : 0 ≤ v := by
  unfold eatNumPct at h
  split at h
  · simp at h
  · split at h
    · rw [Option.some_inj, Prod.mk.injEq] at h
      rw [← h.1]
      exact numVal_nonneg _ _
    · split at h
      · simp at h
      · split at h
        · rw [Option.some_inj, Prod.mk.injEq] at h
          rw [← h.1]
          exact numVal_nonneg _ _
        · simp at h
    · simp at h

lemma matchMS_nonneg (cls : Char → Bool) (s : List Char) (v : ℚ)
    (h : matchMS cls s = some v) : 0 ≤ v := by
  unfold matchMS at h
  simp only [Option.bind_eq_some] at h
  obtain ⟨s1, -, s2, -, s3, -, s4, -, vr, hnum, hv⟩ := h
  rw [Option.some_inj] at hv
  rw [← hv]
  exact eatNumPct_nonneg s4 vr.1 vr.2 hnum

lemma matchP1At_nonneg (s : List Char) (v : ℚ) (h : matchP1At s = some v) :
    0 ≤ v := by
  unfold matchP1At at h
  split at h
  · rename_i v1 h1
    rw [Option.some_inj] at h
    rw [← h]
    simp only [Option.bind_eq_some] at h1
    obtain ⟨s1, -, s2, -, h2⟩ := h1
    exact matchMS_nonneg _ _ _ h2
  · exact matchMS_nonneg _ _ _ h

lemma matchP2At_nonneg (s : List Char) (v : ℚ) (h : matchP2At s = some v) :
    0 ≤ v := by
  unfold matchP2At at h
  simp only [Option.bind_eq_some] at h
  obtain ⟨s1, -, s2, -, s3, -, s4, -, s5, -, s6, -, vr, hnum, hv⟩ := h
  rw [Option.some_inj] at hv
  rw [← hv]
  exact eatNumPct_nonneg s6 vr.1 vr.2 hnum

lemma matchP4At_nonneg (s : List Char) (v : ℚ) (h : matchP4At s = some v) :
    0 ≤ v := by
  unfold matchP4At at h
  simp only [Option.bind_eq_some] at h
  obtain ⟨vr, hnum, r2, -, r3, -, hv⟩ := h
  rw [Option.some_inj] at hv
  rw [← hv]
  exact eatNumPct_nonneg s vr.1 vr.2 hnum

lemma searchPat_nonneg (m : List Char → Option ℚ)
    (hm : ∀ s v, m s = some v → 0 ≤ v) :
    ∀ (s : List Char) (v : ℚ), searchPat m s = some v → 0 ≤ v := by
  intro s
  induction s with
  | nil => intro v h; simp [searchPat] at h
  | cons c rest ih =>
    intro v h
    rw [searchPat] at h
    split at h
    · rename_i v1 h1
      rw [Option.some_inj] at h
      rw [← h]
      exact hm _ _ h1
    · exact ih v h

/-- Any score the extractor returns is non-negative (the captured group is
a digit string). -/
lemma extract_score_nonneg (s : List Char) (v : ℚ)
    (h : extract_score s = some v) : 0 ≤ v := by
  unfold extract_score at h
  split at h
  · rename_i v1 h1
    rw [Option.some_inj] at h
    rw [← h]
    exact searchPat_nonneg matchP1At matchP1At_nonneg s v1 h1
  · split at h
    · rename_i v2 h2
      rw [Option.some_inj] at h
      rw [← h]
      exact searchPat_nonneg matchP2At matchP2At_nonneg s v2 h2
    · split at h
      · rename_i v3 h3
        rw [Option.some_inj] at h
        rw [← h]
        exact searchPat_nonneg matchP3At
          (fun s v => matchMS_nonneg isColonWs s v) s v3 h3
      · exact searchPat_nonneg matchP4At matchP4At_nonneg s v h

/-- C9 (amended): every accepted `MatchResult` score is non-negative, and
is at most 1 *provided* every section of every generated response extracts
to a score of at most 1 (equivalently, the model never announces a
percentage above 100); without that proviso scores above 1 are stored
unclamped, as the counterexample shows. -/
theorem C9_score_range (oracle : Nat → Except (List Char) (List Char))
    (minScore : ℚ) (n : Nat) (pool : List JobResult) :
    (∀ m ∈ (scoreLoop oracle minScore n pool).matched, 0 ≤ m.1)
    ∧ ((∀ (i : Nat) (sec : List Char),
          sec ∈ splitSections (generate_response oracle i) →
          (extract_score sec).getD 0 ≤ 1) →
        ∀ m ∈ (scoreLoop oracle minScore n pool).matched, m.1 ≤ 1) := by
  have key : ∀ m ∈ (scoreLoop oracle minScore n pool).matched,
      ∃ i : Nat, m.2.2 ∈ splitSections (generate_response oracle i)
        ∧ m.1 = (extract_score m.2.2).getD 0 := by
    intro m hm
    rw [scoreLoop_matched_take oracle minScore n pool] at hm
    have hm2 := List.mem_of_mem_take hm
    obtain ⟨p, _, hp⟩ := List.mem_filterMap.mp hm2
    unfold acceptStep at hp
    rcases hq : parse_job_scores (generate_response oracle p.1) [p.2] 1 with _ | ⟨⟨s, jd, sec⟩, t⟩ <;>
      rw [hq] at hp
    · simp at hp
    · dsimp only at hp
      split at hp
      · rw [Option.some_inj] at hp
        obtain ⟨h1, h2⟩ := parse_mem (generate_response oracle p.1) [p.2] 1 (s, jd, sec)
          (by rw [hq]; exact List.mem_cons_self _ _)
        rw [← hp]
        exact ⟨p.1, h1, h2⟩
      · simp at hp
  constructor
  · intro m hm
    obtain ⟨i, _, hv⟩ := key m hm
    rw [hv]
    rcases he : extract_score m.2.2 with _ | v
    · simp
    · simp only [Option.getD]
      exact extract_score_nonneg _ _ he
  · intro hb m hm
    obtain ⟨i, hsec, hv⟩ := key m hm
    rw [hv]
    exact hb i m.2.2 hsec

def c9wresp : List Char := "### Job #1: Match Score: 70%".data

def c9wsec : List Char := " Match Score: 70%".data

def c9woracle : Nat → Except (List Char) (List Char) := fun _ => Except.ok c9wresp

def c9wjob : JobResult := ⟨6, mkRat 9 10, "F"⟩

theorem C9_witness :
    (scoreLoop c9woracle (mkRat 6 10) 1 [c9wjob]).matched.map (fun m => m.1)
      = [mkRat 70 100]
    ∧ (0 : ℚ) ≤ mkRat 70 100
    ∧ (mkRat 70 100 : ℚ) ≤ 1 := by
  have h := C9_score_range c9woracle (mkRat 6 10) 1 [c9wjob]
  have hmem : ((mkRat 70 100 : ℚ), c9wjob, c9wsec)
      ∈ (scoreLoop c9woracle (mkRat 6 10) 1 [c9wjob]).matched := by
    decide
  have hb : ∀ (i : Nat) (sec : List Char),
      sec ∈ splitSections (generate_response c9woracle i) →
      (extract_score sec).getD 0 ≤ 1 := by
    intro i sec hsec
    have hresp : generate_response c9woracle i = c9wresp := rfl
    rw [hresp] at hsec
    have hss : splitSections c9wresp = [[], c9wsec] := by decide
    rw [hss] at hsec
    rcases List.mem_cons.mp hsec with h1 | h1
    · subst h1; decide
    · rcases List.mem_cons.mp h1 with h2 | h2
      · subst h2; decide
      · simp at h2
  exact ⟨by decide, h.1 _ hmem, h.2 hb _ hmem⟩

/-! ### C7: supporting lemmas -/

lemma isDigitC_iff (c : Char) : isDigitC c = true ↔ 48 ≤ c.toNat ∧ c.toNat ≤ 57 := by
  simp [isDigitC]

lemma lowerC_digit (c : Char) (h : isDigitC c = true) : lowerC c = c := by
  rw [isDigitC_iff] at h
  unfold lowerC
  rw [if_neg]
  omega

lemma digit_ne_char (c : Char) (h : isDigitC c = true) (l : Char)
    (hl : isDigitC l = false) : c ≠ l := by
  intro he
  rw [he] at h
  rw [h] at hl
  exact absurd hl (by simp)

lemma eatLit_cons_ne (l : Char) (ls : List Char) (c : Char) (t : List Char)
    (h : lowerC c ≠ lowerC l) : eatLit (l :: ls) (c :: t) = none := by
  show (if lowerC c = lowerC l then eatLit ls t else none) = none
  exact if_neg h

lemma takeWhile_append_all (p : Char → Bool) (l r : List Char)
    (h : ∀ c ∈ l, p c = true) : (l ++ r).takeWhile p = l ++ r.takeWhile p := by
  induction l with
  | nil => simp
  | cons a l ih =>
    simp only [List.cons_append, List.takeWhile_cons]
    rw [h a (List.mem_cons_self a l)]
    simp only [if_true, List.cons.injEq, true_and]
    exact ih (fun c hc => h c (List.mem_cons_of_mem a hc))

lemma dropWhile_append_all (p : Char → Bool) (l r : List Char)
    (h : ∀ c ∈ l, p c = true) : (l ++ r).dropWhile p = r.dropWhile p := by
  induction l with
  | nil => simp
  | cons a l ih =>
    simp only [List.cons_append, List.dropWhile_cons]
    rw [h a (List.mem_cons_self a l)]
    simp only [if_true]
    exact ih (fun c hc => h c (List.mem_cons_of_mem a hc))

lemma dropWhile_cons_neg (p : Char → Bool) (c : Char) (t : List Char)
    (h : p c = false) : (c :: t).dropWhile p = c :: t := by
  simp [List.dropWhile_cons, h]

lemma searchPat_cons_some (m : List Char → Option ℚ) (c : Char)
    (rest : List Char) (v : ℚ) (h : m (c :: rest) = some v) :
    searchPat m (c :: rest) = some v := by
  rw [searchPat, h]

lemma searchPat_cons_none (m : List Char → Option ℚ) (c : Char)
    (rest : List Char) (h : m (c :: rest) = none) :
    searchPat m (c :: rest) = searchPat m rest := by
  rw [searchPat, h]

lemma searchPat_digits (m : List Char → Option ℚ) (D r : List Char)
    (hD : ∀ c ∈ D, isDigitC c = true)
    (hm : ∀ (c : Char) (t : List Char), isDigitC c = true → m (c :: t) = none) :
    searchPat m (D ++ r) = searchPat m r := by
  induction D with
  | nil => simp
  | cons d D' ih =>
    rw [List.cons_append,
      searchPat_cons_none m d (D' ++ r) (hm d _ (hD d (List.mem_cons_self d D')))]
    exact ih (fun c hc => hD c (List.mem_cons_of_mem d hc))

lemma toNat_ofNat_digit (d : Nat) (hd : d < 10) :
    (Char.ofNat (48 + d)).toNat = 48 + d := by
  interval_cases d <;> rfl

lemma renderNatAux_digits (fuel : Nat) :
    ∀ (n : Nat), ∀ c ∈ renderNatAux fuel n, isDigitC c = true := by
  induction fuel with
  | zero => intro n c hc; simp [renderNatAux] at hc
  | succ fuel ih =>
    intro n c hc
    rw [renderNatAux] at hc
    by_cases hn : n = 0
    · rw [if_pos hn] at hc; simp at hc
    · rw [if_neg hn] at hc
      rcases List.mem_append.mp hc with h | h
      · exact ih (n / 10) c h
      · simp at h
        rw [h, isDigitC_iff, toNat_ofNat_digit (n % 10) (Nat.mod_lt n (by omega))]
        omega

lemma renderNat_digits (n : Nat) : ∀ c ∈ renderNat n, isDigitC c = true := by
  intro c hc
  unfold renderNat at hc
  by_cases hn : n = 0
  · rw [if_pos hn] at hc
    simp at hc
    rw [hc]
    decide
  · rw [if_neg hn] at hc
    exact renderNatAux_digits (n + 1) n c hc

lemma renderNat_ne_nil (n : Nat) : renderNat n ≠ [] := by
  unfold renderNat
  by_cases hn : n = 0
  · rw [if_pos hn]; simp
  · rw [if_neg hn, renderNatAux, if_neg hn]
    simp

lemma renderNatAux_foldl (fuel : Nat) :
    ∀ (n a : Nat), n ≤ fuel →
    List.foldl (fun acc c => 10 * acc + digitValC c) a (renderNatAux fuel n)
      = a * 10 ^ (renderNatAux fuel n).length + n := by
  induction fuel with
  | zero =>
    intro n a h
    have : n = 0 := Nat.le_zero.mp h
    subst this
    simp [renderNatAux]
  | succ fuel ih =>
    intro n a h
    rw [renderNatAux]
    by_cases hn : n = 0
    · subst hn; simp
    · rw [if_neg hn]
      have hdiv : n / 10 ≤ fuel := by
        have h1 : n / 10 < n := Nat.div_lt_self (by omega) (by omega)
        omega
      rw [List.foldl_append, ih (n / 10) a hdiv]
      simp only [List.foldl_cons, List.foldl_nil, List.length_append,
        List.length_cons, List.length_nil]
      have hch : digitValC (Char.ofNat (48 + n % 10)) = n % 10 := by
        unfold digitValC
        rw [toNat_ofNat_digit (n % 10) (Nat.mod_lt n (by omega))]
        omega
      rw [hch]
      have hmod := Nat.div_add_mod n 10
      have hpow : a * 10 ^ ((renderNatAux fuel (n / 10)).length + (0 + 1))
          = a * 10 ^ (renderNatAux fuel (n / 10)).length * 10 := by
        rw [pow_succ]
        ring
      rw [hpow]
      omega

lemma digitsToNat_renderNat (n : Nat) : digitsToNat (renderNat n) = n := by
  unfold digitsToNat renderNat
  by_cases hn : n = 0
  · subst hn; decide
  · rw [if_neg hn, renderNatAux_foldl (n + 1) n 0 (by omega)]
    simp

lemma eatNumPct_digits (D r : List Char) (hne : D ≠ [])
    (hd : ∀ c ∈ D, isDigitC c = true) :
    eatNumPct (D ++ '%' :: r) = some (numVal D [], r) := by
  have hpct : isDigitC '%' = false := by decide
  have ht : (D ++ '%' :: r).takeWhile isDigitC = D := by
    rw [takeWhile_append_all _ _ _ hd]
    simp [List.takeWhile_cons, hpct]
  have hdr : (D ++ '%' :: r).dropWhile isDigitC = '%' :: r := by
    rw [dropWhile_append_all _ _ _ hd]
    exact dropWhile_cons_neg isDigitC '%' r hpct
  unfold eatNumPct
  rw [ht, hdr]
  rw [if_neg (by simp [List.isEmpty_iff, hne])]
  rfl

lemma numVal_nil (D : List Char) :
    numVal D [] = (digitsToNat D : ℚ) / 100 := by
  unfold numVal
  simp only [digitsToNat, List.foldl_nil, List.length_nil, pow_zero, mul_one,
    Nat.add_zero]
  rw [Rat.mkRat_eq_div]
  push_cast
  ring

lemma isColonWsStar_digit (c : Char) (h : isDigitC c = true) :
    isColonWsStar c = false := by
  rw [isDigitC_iff] at h
  simp [isColonWsStar, isWs]
  omega

/-- Evaluation of the `Match\s+Score<cls>+(\d+)%` core on a well-formed
fragment: literal `Match Score`, then a non-empty run `J` of class
characters, then a non-empty digit run `D`, then `%`. -/
lemma matchMS_eval (cls : Char → Bool) (J D r : List Char)
    (hJne : J ≠ []) (hJ : ∀ c ∈ J, cls c = true)
    (hne : D ≠ []) (hd : ∀ c ∈ D, isDigitC c = true)
    (hnd : ∀ c, isDigitC c = true → cls c = false) :
    matchMS cls ("Match Score".data ++ (J ++ (D ++ '%' :: r)))
      = some (numVal D []) := by
  obtain ⟨j, J', rfl⟩ := List.exists_cons_of_ne_nil hJne
  obtain ⟨d, D', rfl⟩ := List.exists_cons_of_ne_nil hne
  have h1 : matchMS cls ("Match Score".data ++ ((j :: J') ++ ((d :: D') ++ '%' :: r)))
      = (eatClass1 cls (j :: (J' ++ ((d :: D') ++ '%' :: r)))).bind
          (fun s4 => (eatNumPct s4).bind fun vr => some vr.1) := rfl
  rw [h1]
  have h2 : eatClass1 cls (j :: (J' ++ ((d :: D') ++ '%' :: r)))
      = some ((d :: D') ++ '%' :: r) := by
    have h3 : eatClass1 cls (j :: (J' ++ ((d :: D') ++ '%' :: r)))
        = if cls j = true then some ((J' ++ ((d :: D') ++ '%' :: r)).dropWhile cls)
          else none := rfl
    rw [h3, if_pos (hJ j (List.mem_cons_self _ _))]
    rw [dropWhile_append_all cls J' _ (fun c hc => hJ c (List.mem_cons_of_mem _ hc))]
    rw [List.cons_append]
    rw [dropWhile_cons_neg cls d _ (hnd d (hd d (List.mem_cons_self _ _)))]
  rw [h2]
  simp only [Option.some_bind]
  rw [eatNumPct_digits (d :: D') r (by simp) hd]
  rfl

lemma matchP1At_eval_plain (J D r : List Char)
    (hJne : J ≠ []) (hJ : ∀ c ∈ J, isColonWsStar c = true)
    (hne : D ≠ []) (hd : ∀ c ∈ D, isDigitC c = true) :
    matchP1At ("Match Score".data ++ (J ++ (D ++ '%' :: r)))
      = some (numVal D []) := by
  have h0 : matchP1At ("Match Score".data ++ (J ++ (D ++ '%' :: r)))
      = matchMS isColonWsStar ("Match Score".data ++ (J ++ (D ++ '%' :: r))) := rfl
  rw [h0]
  exact matchMS_eval isColonWsStar J D r hJne hJ hne hd isColonWsStar_digit

lemma matchP1At_eval_overall (J D r : List Char)
    (hJne : J ≠ []) (hJ : ∀ c ∈ J, isColonWsStar c = true)
    (hne : D ≠ []) (hd : ∀ c ∈ D, isDigitC c = true) :
    matchP1At ("Overall ".data ++ ("Match Score".data ++ (J ++ (D ++ '%' :: r))))
      = some (numVal D []) := by
  have h0 : matchP1At ("Overall ".data ++ ("Match Score".data ++ (J ++ (D ++ '%' :: r))))
      = match matchMS isColonWsStar ("Match Score".data ++ (J ++ (D ++ '%' :: r))) with
        | some v => some v
        | none => matchMS isColonWsStar
            ("Overall ".data ++ ("Match Score".data ++ (J ++ (D ++ '%' :: r)))) := rfl
  rw [h0, matchMS_eval isColonWsStar J D r hJne hJ hne hd isColonWsStar_digit]

lemma matchP1At_digit_none (c : Char) (t : List Char) (h : isDigitC c = true) :
    matchP1At (c :: t) = none := by
  have hlc := lowerC_digit c h
  have hne_o : lowerC c ≠ lowerC 'o' := by
    rw [hlc, show lowerC 'o' = 'o' from rfl]
    exact digit_ne_char c h 'o' (by decide)
  have hne_m : lowerC c ≠ lowerC 'm' := by
    rw [hlc, show lowerC 'm' = 'm' from rfl]
    exact digit_ne_char c h 'm' (by decide)
  have h0 : eatLit "overall".data (c :: t) = none := eatLit_cons_ne 'o' _ c t hne_o
  have h1 : eatLit "match".data (c :: t) = none := eatLit_cons_ne 'm' _ c t hne_m
  unfold matchP1At matchMS
  rw [h0, h1]
  rfl

lemma matchP2At_digit_none (c : Char) (t : List Char) (h : isDigitC c = true) :
    matchP2At (c :: t) = none := by
  have hne_s : lowerC c ≠ lowerC '*' := by
    rw [lowerC_digit c h, show lowerC '*' = '*' from rfl]
    exact digit_ne_char c h '*' (by decide)
  have h0 : eatLit "**overall".data (c :: t) = none := eatLit_cons_ne '*' _ c t hne_s
  unfold matchP2At
  rw [h0]
  rfl

lemma matchP3At_digit_none (c : Char) (t : List Char) (h : isDigitC c = true) :
    matchP3At (c :: t) = none := by
  have hne_m : lowerC c ≠ lowerC 'm' := by
    rw [lowerC_digit c h, show lowerC 'm' = 'm' from rfl]
    exact digit_ne_char c h 'm' (by decide)
  have h1 : eatLit "match".data (c :: t) = none := eatLit_cons_ne 'm' _ c t hne_m
  unfold matchP3At matchMS
  rw [h1]
  rfl

/-- C7: round-trip — formatting any integer percentage `N` into each of the
supported score formats (`Overall Match Score: N%`, its bold markup variant
`**Overall Match Score:** N%`, `Match Score: N%`, `N% match`) and running
the score extraction on the resulting text yields exactly `N / 100`. -/
theorem C7_round_trip (N : Nat) :
    extract_score ("Overall Match Score: ".data ++ renderNat N ++ "%".data)
      = some ((N : ℚ) / 100)
    ∧ extract_score ("**Overall Match Score:** ".data ++ renderNat N ++ "%".data)
      = some ((N : ℚ) / 100)
    ∧ extract_score ("Match Score: ".data ++ renderNat N ++ "%".data)
      = some ((N : ℚ) / 100)
    ∧ extract_score (renderNat N ++ "% match".data) = some ((N : ℚ) / 100) := by
  have hne := renderNat_ne_nil N
  have hdig := renderNat_digits N
  have hval : numVal (renderNat N) [] = (N : ℚ) / 100 := by
    rw [numVal_nil, digitsToNat_renderNat]
  refine ⟨?_, ?_, ?_, ?_⟩
  · have hp1 : searchPat matchP1At ("Overall Match Score: ".data ++ renderNat N ++ "%".data)
        = some (numVal (renderNat N) []) := by
      apply searchPat_cons_some
      exact matchP1At_eval_overall [':', ' '] (renderNat N) []
        (by simp) (by decide) hne hdig
    unfold extract_score
    rw [hp1, hval]
  · have hp1 : searchPat matchP1At ("**Overall Match Score:** ".data ++ renderNat N ++ "%".data)
        = some (numVal (renderNat N) []) := by
      have e1 : searchPat matchP1At ("**Overall Match Score:** ".data ++ renderNat N ++ "%".data)
          = searchPat matchP1At ("*Overall Match Score:** ".data ++ renderNat N ++ "%".data) :=
        searchPat_cons_none matchP1At '*'
          ("*Overall Match Score:** ".data ++ renderNat N ++ "%".data) rfl
      have e2 : searchPat matchP1At ("*Overall Match Score:** ".data ++ renderNat N ++ "%".data)
          = searchPat matchP1At ("Overall Match Score:** ".data ++ renderNat N ++ "%".data) :=
        searchPat_cons_none matchP1At '*'
          ("Overall Match Score:** ".data ++ renderNat N ++ "%".data) rfl
      rw [e1, e2]
      apply searchPat_cons_some
      exact matchP1At_eval_overall [':', '*', '*', ' '] (renderNat N) []
        (by simp) (by decide) hne hdig
    unfold extract_score
    rw [hp1, hval]
  · have hp1 : searchPat matchP1At ("Match Score: ".data ++ renderNat N ++ "%".data)
        = some (numVal (renderNat N) []) := by
      apply searchPat_cons_some
      exact matchP1At_eval_plain [':', ' '] (renderNat N) []
        (by simp) (by decide) hne hdig
    unfold extract_score
    rw [hp1, hval]
  · have h1 : searchPat matchP1At (renderNat N ++ "% match".data)
        = searchPat matchP1At ("% match".data) :=
      searchPat_digits _ _ _ hdig matchP1At_digit_none
    have h1b : searchPat matchP1At ("% match".data) = none := by decide
    have h2 : searchPat matchP2At (renderNat N ++ "% match".data)
        = searchPat matchP2At ("% match".data) :=
      searchPat_digits _ _ _ hdig matchP2At_digit_none
    have h2b : searchPat matchP2At ("% match".data) = none := by decide
    have h3 : searchPat matchP3At (renderNat N ++ "% match".data)
        = searchPat matchP3At ("% match".data) :=
      searchPat_digits _ _ _ hdig matchP3At_digit_none
    have h3b : searchPat matchP3At ("% match".data) = none := by decide
    have h4 : searchPat matchP4At (renderNat N ++ "% match".data)
        = some (numVal (renderNat N) []) := by
      obtain ⟨d, D', hD⟩ := List.exists_cons_of_ne_nil hne
      have hd' : ∀ c ∈ d :: D', isDigitC c = true := by
        rw [← hD]; exact hdig
      rw [hD]
      apply searchPat_cons_some
      show matchP4At ((d :: D') ++ '%' :: (' ' :: "match".data))
        = some (numVal (d :: D') [])
      unfold matchP4At
      rw [eatNumPct_digits (d :: D') (' ' :: "match".data) (by simp) hd']
      rfl
    unfold extract_score
    rw [h1, h1b, h2, h2b, h3, h3b, h4, hval]
